import Mathlib
set_option maxHeartbeats 1000000

/-!
Shallow embedding of the scoring stages of the tiktok-recommendation-engine
repository (`src/stages/scoring/`): the virality scorer, relevance scorer,
affinity scorer and final ranker, together with theorems checking the
specification's claims about them.

All Python floats are modelled as rationals (every constant in the code is a
decimal literal, and all arithmetic in the relevant paths is exact on ℚ);
counters are naturals, Unix timestamps are integers.
-/

namespace TikTokRec

/-- A video's `stats` dictionary (`plays`, `likes`, `comments`, `shares`),
with the code's `.get(_, 0)` defaults folded in: absent counters are 0. -/
structure Stats where
  plays : ℕ
  likes : ℕ
  comments : ℕ
  shares : ℕ
deriving DecidableEq, Repr

/-! ## Virality scorer (`src/stages/scoring/virality_scorer.py`) -/

/-- `engagement_rate` as computed in `ViralityScorer.score_single`:
`(likes + comments + shares) / plays` guarded by `if plays > 0`, else 0. -/
def engagementRate (s : Stats) : ℚ :=
  if 0 < s.plays then ((s.likes : ℚ) + s.comments + s.shares) / s.plays else 0

/-- `ViralityScorer._normalize_plays`. -/
def normalizePlays (plays : ℚ) : ℚ :=
  if plays < 10000 then plays / 10000 * (3/10)
  else if plays < 100000 then 3/10 + (plays - 10000) / 90000 * (3/10)
  else if plays < 1000000 then 3/5 + (plays - 100000) / 900000 * (1/5)
  else if plays < 10000000 then 4/5 + (plays - 1000000) / 9000000 * (3/20)
  else 19/20 + min (1/20) (plays / 100000000)

/-- `ViralityScorer._normalize_engagement_rate`. -/
def normalizeEngagementRate (rate : ℚ) : ℚ :=
  if rate < 1/100 then rate / (1/100) * (3/10)
  else if rate < 1/20 then 3/10 + (rate - 1/100) / (1/25) * (3/10)
  else if rate < 1/10 then 3/5 + (rate - 1/20) / (1/20) * (1/4)
  else if rate < 1/5 then 17/20 + (rate - 1/10) / (1/10) * (1/10)
  else 19/20 + min (1/20) (rate - 1/5)

/-- `ViralityScorer._normalize_shares`. -/
def normalizeShares (shares : ℚ) : ℚ :=
  if shares < 100 then shares / 100 * (3/10)
  else if shares < 1000 then 3/10 + (shares - 100) / 900 * (3/10)
  else if shares < 10000 then 3/5 + (shares - 1000) / 9000 * (1/4)
  else if shares < 100000 then 17/20 + (shares - 10000) / 90000 * (1/10)
  else 19/20 + min (1/20) (shares / 1000000)

/-- `ViralityScorer._calculate_time_decay`.  `create_time = none` models a
missing key; Python's `if not create_time` is falsy on both `None` and the
integer `0`, which the `t = 0` test reproduces.  `days_old` is
`(now - video_date).days`, i.e. floor division of the age in seconds by
86400 (`Int.fdiv` is Python's floor division). -/
def calculateTimeDecay (create_time : Option ℤ) (now : ℤ) : ℚ :=
  match create_time with
  | none => 1/2
  | some t =>
    if t = 0 then 1/2
    else
      let days : ℤ := Int.fdiv (now - t) 86400
      if days < 1 then 1
      else if days < 7 then 9/10
      else if days < 30 then 7/10
      else if days < 90 then 1/2
      else if days < 180 then 3/10
      else 1/10

/-- `ViralityScorer.score_single`: weighted combination of the four
components, clamped from above at 1. -/
def viralityScore (s : Stats) (create_time : Option ℤ) (now : ℤ) : ℚ :=
  min 1 (normalizePlays s.plays * (3/10)
    + normalizeEngagementRate (engagementRate s) * (3/10)
    + normalizeShares s.shares * (1/5)
    + calculateTimeDecay create_time now * (1/5))

/-! ## String utilities

Python's substring operator `a in b` and `str.lower()`/`str.split('_')`,
modelled on `List Char`. -/

/-- `leadsWith needle hay` : `needle` is an initial segment of `hay`. -/
def leadsWith : List Char → List Char → Bool
  | [], _ => true
  | _ :: _, [] => false
  | a :: as, b :: bs => a == b && leadsWith as bs

/-- `containsSeq needle hay` : `needle` occurs contiguously in `hay`
(Python's `needle in hay` on strings; the empty needle always matches). -/
def containsSeq (needle : List Char) : List Char → Bool
  | [] => needle.isEmpty
  | b :: bs => leadsWith needle (b :: bs) || containsSeq needle bs

/-- Python `needle in hay` for strings. -/
def strContains (hay needle : String) : Bool :=
  containsSeq needle.toList hay.toList

/-- Python `str.lower()` (ASCII case folding, as in all inputs the
pipeline handles). -/
def strLower (s : String) : String :=
  String.mk (s.toList.map Char.toLower)

/-- Splitting a character list at every occurrence of `c`
(Python `str.split(sep)` semantics: `"a__b".split("_") = ["a","","b"]`,
`"".split("_") = [""]`). -/
def splitCh (c : Char) : List Char → List (List Char)
  | [] => [[]]
  | x :: xs =>
    match splitCh c xs with
    | [] => [[]]
    | g :: gs => if x == c then [] :: g :: gs else (x :: g) :: gs

/-- Python `tag_name.split('_')`. -/
def splitU (s : String) : List String :=
  (splitCh '_' s.toList).map String.mk

/-! ## Data model -/

/-- A video dictionary as consumed by the scoring stages.  `id = none` models
a missing `id` key; absent string fields default to `""` and absent lists to
`[]`, matching the code's `.get(_, default)` accesses. -/
structure Video where
  id : Option String
  description : String
  author : String
  url : String
  stats : Stats
  create_time : Option ℤ
  music_title : String
  hashtags : List String
  source_tags : List String
deriving DecidableEq, Repr

/-- A user tag with its affinity, as produced by the affinity stage and
consumed by the relevance scorer and final ranker
(`{'tag': ..., 'affinity': ..., 'reason': ...}`). -/
structure UserTag where
  tag : String
  affinity : ℚ
  reason : String
deriving DecidableEq, Repr

/-- One of the user's posts / reposts / liked posts as consumed by the
affinity scorer. -/
structure Post where
  description : String
  hashtags : List String
  stats : Stats
deriving DecidableEq, Repr

/-- An initial tag mapping from the LLM stage (`{'tag', 'affinity', 'reason'}`);
`affinity = none` models a missing key (the code defaults it to 0.5). -/
structure TagMapping where
  tag : String
  affinity : Option ℚ
  reason : String
deriving DecidableEq, Repr

/-- Output element of `AffinityScorer.score`. -/
structure ScoredTag where
  tag : String
  affinity : ℚ
  reason : String
  base_affinity : ℚ
  engagement_boost : ℚ
deriving DecidableEq, Repr

/-- A recommendation dictionary built by `FinalRanker.rank`; the nested
`scores` dict is flattened into three fields. -/
structure Recommendation where
  video_id : String
  description : String
  author : String
  url : String
  score : ℚ
  scores_virality : ℚ
  scores_relevance : ℚ
  scores_engagement : ℚ
  matched_tags : List String
  stats : Stats
  create_time : Option ℤ
  music_title : String
  hashtags : List String
deriving DecidableEq, Repr

/-- A `video ID → score` dictionary, as an association list; Python's
`dict.get(key, default)` is `lookupScore`. -/
abbrev ScoreMap := List (String × ℚ)

/-- `scores.get(video_id, default)`. -/
def lookupScore (m : ScoreMap) (k : String) (d : ℚ) : ℚ :=
  match List.find? (fun p => p.1 == k) m with
  | some p => p.2
  | none => d

/-! ## Affinity scorer (`src/stages/scoring/affinity_scorer.py`) -/

/-- `AffinityScorer._calculate_influence_factor` (follower count defaulted
to 0 when missing). -/
def influenceFactor (followers : ℕ) : ℚ :=
  if followers < 1000 then 4/5
  else if followers < 10000 then 9/10
  else if followers < 100000 then 1
  else if followers < 1000000 then 11/10
  else 6/5

/-- Per-item engagement `likes + comments*2 + shares*3` from
`_analyze_content_relevance`. -/
def itemEngagement (s : Stats) : ℚ :=
  (s.likes : ℚ) + s.comments * 2 + s.shares * 3

/-- The match test of `_analyze_content_relevance`: `tag in desc_lower or
tag in hashtags_lower` — a substring test against the description but an
exact membership test against the lowercased hashtag list.  `tagL` is
already lowercased by the caller. -/
def postMatches (item : Post) (tagL : String) : Bool :=
  strContains (strLower item.description) tagL
    || (item.hashtags.map strLower).contains tagL

/-- `AffinityScorer._analyze_content_relevance` (the early `return 0.0` on
empty content coincides with the empty sum). -/
def analyzeContentRelevance (content : List Post) (tagL : String) (weight : ℚ) : ℚ :=
  (content.map (fun item =>
    if postMatches item tagL then itemEngagement item.stats * weight else 0)).sum

/-- `AffinityScorer._calculate_engagement_boost`. -/
def engagementBoost (tag : String) (posts reposts liked : List Post) : ℚ :=
  let tl := strLower tag
  min (1/5)
    ((analyzeContentRelevance posts tl 1
      + analyzeContentRelevance reposts tl (4/5)
      + analyzeContentRelevance liked tl (3/5)) / 100)

/-- The per-mapping body of `AffinityScorer.score`. -/
def scoreMapping (m : TagMapping) (followers : ℕ)
    (posts reposts liked : List Post) : ScoredTag :=
  let base := m.affinity.getD (1/2)
  let boost := engagementBoost m.tag posts reposts liked
  let infl := influenceFactor followers
  ⟨m.tag, min 1 (base + boost * infl), m.reason, base, boost⟩

/-- `AffinityScorer.score`. -/
def affinityScore (mappings : List TagMapping) (followers : ℕ)
    (posts reposts liked : List Post) : List ScoredTag :=
  mappings.map (fun m => scoreMapping m followers posts reposts liked)

/-! ## Relevance scorer (`src/stages/scoring/relevance_scorer.py`) -/

/-- `RelevanceScorer._create_video_text`: description, `#`-prefixed hashtags,
music title and author joined by single spaces, each part present only when
the corresponding field is truthy. -/
def createVideoText (v : Video) : String :=
  String.intercalate " "
    ((if v.description ≠ "" then [v.description] else [])
      ++ (if v.hashtags ≠ [] then
            [String.intercalate " " (v.hashtags.map (fun t => "#" ++ t))] else [])
      ++ (if v.music_title ≠ "" then ["Music: " ++ v.music_title] else [])
      ++ (if v.author ≠ "" then ["By @" ++ v.author] else []))

/-- One tag's contribution inside `_calculate_tag_match`: full affinity for a
substring hit, half affinity when some `_`-separated keyword hits, else 0. -/
def tagContribution (textL : String) (t : UserTag) : ℚ :=
  let tn := strLower t.tag
  if strContains textL tn then t.affinity
  else if (splitU tn).any (fun k => strContains textL k) then t.affinity * (1/2)
  else 0

/-- `RelevanceScorer._calculate_tag_match`: normalized sum of contributions
over the top-10 user tags, 0 when the normalizer `max_possible` is 0. -/
def calcTagMatch (v : Video) (userTags : List UserTag) : ℚ :=
  let textL := strLower (createVideoText v)
  let top := userTags.take 10
  let maxPossible := (top.map (fun t => t.affinity)).sum
  let total := (top.map (fun t => tagContribution textL t)).sum
  if 0 < maxPossible then total / maxPossible else 0

/-- The embedding-similarity component of `score_single`.  The cosine
similarity between the user and video embeddings is produced by an external
embedding model, abstracted here as a parameter: `sim = none` models either
embedding being `None` (fallback 0.5), `sim = some s` models a computed
cosine similarity `s`, normalized by `(s + 1) / 2`. -/
def embeddingScore (sim : Option ℚ) : ℚ :=
  match sim with
  | none => 1/2
  | some s => (s + 1) / 2

/-- The `source_tag_boost` loop of `score_single`: first of the top-5 user
tags whose name is in the video's `source_tags` yields `0.2 * affinity`. -/
def sourceTagBoost (v : Video) (userTags : List UserTag) : ℚ :=
  match List.find? (fun t => v.source_tags.contains t.tag) (userTags.take 5) with
  | some t => 1/5 * t.affinity
  | none => 0

/-- `RelevanceScorer.score_single`. -/
def relevanceScore (v : Video) (userTags : List UserTag) (sim : Option ℚ) : ℚ :=
  min 1 (calcTagMatch v userTags * (2/5)
    + embeddingScore sim * (2/5)
    + sourceTagBoost v userTags * (1/5))

/-! ## Final ranker (`src/stages/scoring/final_ranker.py`) -/

/-- Python's falsy test `if not video_id` rejects both a missing id and the
empty string. -/
def effectiveId (v : Video) : Option String :=
  match v.id with
  | none => none
  | some s => if s = "" then none else some s

/-- `FinalRanker._calculate_engagement_quality`. -/
def engagementQuality (v : Video) : ℚ :=
  let s := v.stats
  if s.plays = 0 then 1/2
  else
    let likeRatio := (s.likes : ℚ) / s.plays
    let commentRatio := (s.comments : ℚ) / s.plays
    let shareRatio := (s.shares : ℚ) / s.plays
    min 1 ((likeRatio * (3/10) + commentRatio * (2/5) + shareRatio * (3/10)) * 10)

/-- `FinalRanker._find_matched_tags`. -/
def findMatchedTags (v : Video) (userTags : List UserTag) : List String :=
  let textL := strLower (v.description ++ " " ++ String.intercalate " " v.hashtags)
  let matched := userTags.filterMap (fun t =>
    let tn := strLower t.tag
    if strContains textL tn || (splitU tn).any (fun k => strContains textL k)
    then some t.tag else none)
  let withSource := v.source_tags.foldl
    (fun acc tg => if acc.contains tg then acc else acc ++ [tg]) matched
  withSource.take 5

/-- The recommendation object built for one video inside `FinalRanker.rank`
(weights from `config.settings`: virality 0.3, relevance 0.4,
engagement 0.3). -/
def mkRec (v : Video) (vid : String) (vmap rmap : ScoreMap)
    (profileTags : List UserTag) : Recommendation :=
  let virality := lookupScore vmap vid (1/2)
  let relevance := lookupScore rmap vid (1/2)
  let engagement := engagementQuality v
  { video_id := vid
    description := v.description
    author := v.author
    url := v.url
    score := virality * (3/10) + relevance * (2/5) + engagement * (3/10)
    scores_virality := virality
    scores_relevance := relevance
    scores_engagement := engagement
    matched_tags := findMatchedTags v profileTags
    stats := v.stats
    create_time := v.create_time
    music_title := v.music_title
    hashtags := v.hashtags }

/-- The building loop of `FinalRanker.rank`: videos with a falsy id are
skipped with `continue`. -/
def buildRecs (videos : List Video) (vmap rmap : ScoreMap)
    (profileTags : List UserTag) : List Recommendation :=
  videos.filterMap (fun v =>
    (effectiveId v).map (fun i => mkRec v i vmap rmap profileTags))

/-- `list.sort(key=score, reverse=True)`: stable descending sort. -/
def sortByScoreDesc (l : List Recommendation) : List Recommendation :=
  l.mergeSort (fun a b => decide (b.score ≤ a.score))

/-- The author penalty of `_apply_diversity_boost`: ×0.9 when the author was
already seen and more than 3 items were already accepted. -/
def factor1 (r : Recommendation) (n : ℕ) (seenAuthors : List String) : ℚ :=
  if r.author ∈ seenAuthors ∧ 3 < n then 9/10 else 1

/-- The tag penalty of `_apply_diversity_boost`: ×0.85 when the matched-tag
set is non-empty, a subset of the tags seen so far, and more than 5 items
were already accepted. -/
def factor2 (r : Recommendation) (n : ℕ) (seenTags : List String) : ℚ :=
  if r.matched_tags ≠ [] ∧ (∀ t ∈ r.matched_tags, t ∈ seenTags) ∧ 5 < n
  then 17/20 else 1

/-- The forward scan of `_apply_diversity_boost`: `n` is `len(diverse_recs)`,
`seenAuthors`/`seenTags` the running sets (as lists, membership-relevant
only); each item is appended and the sets updated unconditionally. -/
def diversityScanAux : List Recommendation → ℕ → List String → List String →
    List Recommendation
  | [], _, _, _ => []
  | r :: rest, n, seenAuthors, seenTags =>
    { r with score := r.score * factor1 r n seenAuthors * factor2 r n seenTags } ::
      diversityScanAux rest (n + 1) (r.author :: seenAuthors)
        (r.matched_tags ++ seenTags)

/-- `FinalRanker._apply_diversity_boost`: identity on lists of at most 10
items, otherwise the penalty scan followed by a re-sort. -/
def applyDiversityBoost (recs : List Recommendation) : List Recommendation :=
  if recs.length ≤ 10 then recs
  else sortByScoreDesc (diversityScanAux recs 0 [] [])

/-- `FinalRanker.rank`. -/
def rank (videos : List Video) (vmap rmap : ScoreMap)
    (profileTags : List UserTag) : List Recommendation :=
  applyDiversityBoost (sortByScoreDesc (buildRecs videos vmap rmap profileTags))

/-! ## Definitions transcribed from the specification's wording
(for comparison against the code; see the engagement-boost claim). -/

/-- The match test as the specification words it: the item's description
*or hashtags* contain the tag as a case-insensitive *substring* (so a tag
that is a proper substring of a hashtag counts). -/
def claimPostMatches (item : Post) (tagL : String) : Bool :=
  strContains (strLower item.description) tagL
    || item.hashtags.any (fun h => strContains (strLower h) tagL)

/-- The engagement boost as the specification words it:
`min(0.2, S/100)` with `S` summing weighted per-item engagement over the
items selected by `claimPostMatches`. -/
def claimEngagementBoost (tag : String) (posts reposts liked : List Post) : ℚ :=
  let tl := strLower tag
  let bucket := fun (content : List Post) (w : ℚ) =>
    ((content.filter (fun item => claimPostMatches item tl)).map
      (fun item => itemEngagement item.stats)).sum * w
  min (1/5) ((bucket posts 1 + bucket reposts (4/5) + bucket liked (3/5)) / 100)

/-- The weighted matched-item sum that `engagementBoost` actually computes,
stated in the claim's shape (filter, then weighted sum): the match test is
the code's one — substring of the description, or exact (case-insensitive)
membership in the hashtag list. -/
def weightedMatchSum (tagL : String) (posts reposts liked : List Post) : ℚ :=
  ((posts.filter (fun item => postMatches item tagL)).map
      (fun item => itemEngagement item.stats)).sum * 1
    + ((reposts.filter (fun item => postMatches item tagL)).map
        (fun item => itemEngagement item.stats)).sum * (4/5)
    + ((liked.filter (fun item => postMatches item tagL)).map
        (fun item => itemEngagement item.stats)).sum * (3/5)

/-! ## Helper lemmas: ranges and monotonicity of the scoring components -/

theorem normalizePlays_bounds (p : ℚ) (h : 0 ≤ p) :
    0 ≤ normalizePlays p ∧ normalizePlays p ≤ 1 := by
  have hub : min ((1:ℚ)/20) (p / 100000000) ≤ 1/20 := min_le_left _ _
  unfold normalizePlays
  rcases min_choice ((1:ℚ)/20) (p / 100000000) with hm | hm <;>
    rw [hm] at hub ⊢ <;> constructor <;> split_ifs <;> nlinarith

theorem normalizePlays_mono (p q : ℚ) (h0 : 0 ≤ p) (h : p ≤ q) :
    normalizePlays p ≤ normalizePlays q := by
  have hmono : min ((1:ℚ)/20) (p / 100000000) ≤ min ((1:ℚ)/20) (q / 100000000) :=
    min_le_min le_rfl (by linarith)
  have hubp : min ((1:ℚ)/20) (p / 100000000) ≤ 1/20 := min_le_left _ _
  have hlbq : 0 ≤ min ((1:ℚ)/20) (q / 100000000) :=
    le_min (by norm_num) (by linarith)
  unfold normalizePlays
  split_ifs <;> nlinarith

theorem normalizeEngagementRate_bounds (r : ℚ) (h : 0 ≤ r) :
    0 ≤ normalizeEngagementRate r ∧ normalizeEngagementRate r ≤ 1 := by
  have hub : min ((1:ℚ)/20) (r - 1/5) ≤ 1/20 := min_le_left _ _
  unfold normalizeEngagementRate
  rcases min_choice ((1:ℚ)/20) (r - 1/5) with hm | hm <;>
    rw [hm] at hub ⊢ <;> constructor <;> split_ifs <;> nlinarith

theorem normalizeEngagementRate_mono (p q : ℚ) (h0 : 0 ≤ p) (h : p ≤ q) :
    normalizeEngagementRate p ≤ normalizeEngagementRate q := by
  have hmono : min ((1:ℚ)/20) (p - 1/5) ≤ min ((1:ℚ)/20) (q - 1/5) :=
    min_le_min le_rfl (by linarith)
  have hubp : min ((1:ℚ)/20) (p - 1/5) ≤ 1/20 := min_le_left _ _
  have hubq : min ((1:ℚ)/20) (q - 1/5) ≤ 1/20 := min_le_left _ _
  unfold normalizeEngagementRate
  split_ifs <;>
    first
      | nlinarith [hmono, hubp, hubq]
      | nlinarith [hmono, hubp, hubq,
          le_min (show (0:ℚ) ≤ 1/20 by norm_num)
            (show (0:ℚ) ≤ q - 1/5 by linarith)]

theorem normalizeShares_bounds (s : ℚ) (h : 0 ≤ s) :
    0 ≤ normalizeShares s ∧ normalizeShares s ≤ 1 := by
  have hub : min ((1:ℚ)/20) (s / 1000000) ≤ 1/20 := min_le_left _ _
  unfold normalizeShares
  rcases min_choice ((1:ℚ)/20) (s / 1000000) with hm | hm <;>
    rw [hm] at hub ⊢ <;> constructor <;> split_ifs <;> nlinarith

theorem normalizeShares_mono (p q : ℚ) (h0 : 0 ≤ p) (h : p ≤ q) :
    normalizeShares p ≤ normalizeShares q := by
  have hmono : min ((1:ℚ)/20) (p / 1000000) ≤ min ((1:ℚ)/20) (q / 1000000) :=
    min_le_min le_rfl (by linarith)
  have hubp : min ((1:ℚ)/20) (p / 1000000) ≤ 1/20 := min_le_left _ _
  have hlbq : 0 ≤ min ((1:ℚ)/20) (q / 1000000) :=
    le_min (by norm_num) (by linarith)
  unfold normalizeShares
  split_ifs <;> nlinarith

theorem engagementRate_nonneg (s : Stats) : 0 ≤ engagementRate s := by
  unfold engagementRate
  split_ifs with h
  · apply div_nonneg (by positivity) (by positivity)
  · exact le_refl _

theorem calculateTimeDecay_bounds (ct : Option ℤ) (now : ℤ) :
    0 ≤ calculateTimeDecay ct now ∧ calculateTimeDecay ct now ≤ 1 := by
  rcases ct with _ | t
  · constructor <;> norm_num [calculateTimeDecay]
  · simp only [calculateTimeDecay]
    split_ifs <;> norm_num

/-! ## Claim theorems -/

/-- C6: the influence factor is an exact step function of the follower
count: `<1000 → 0.8`, `<10000 → 0.9`, `<100000 → 1.0`, `<1000000 → 1.1`,
else `1.2`, with the stated boundary values. -/
theorem influenceFactor_step (n : ℕ) :
    (n < 1000 → influenceFactor n = 4/5) ∧
    (1000 ≤ n → n < 10000 → influenceFactor n = 9/10) ∧
    (10000 ≤ n → n < 100000 → influenceFactor n = 1) ∧
    (100000 ≤ n → n < 1000000 → influenceFactor n = 11/10) ∧
    (1000000 ≤ n → influenceFactor n = 6/5) ∧
    influenceFactor 999 = 4/5 ∧ influenceFactor 1000 = 9/10 ∧
    influenceFactor 9999 = 9/10 ∧ influenceFactor 10000 = 1 ∧
    influenceFactor 99999 = 1 ∧ influenceFactor 100000 = 11/10 ∧
    influenceFactor 999999 = 11/10 ∧ influenceFactor 1000000 = 6/5 := by
  refine ⟨?_, ?_, ?_, ?_, ?_, ?_, ?_, ?_, ?_, ?_, ?_, ?_, ?_⟩ <;>
    (intros
     unfold influenceFactor
     split_ifs <;> first | rfl | omega)

/-- Witness for `influenceFactor_step` at concrete follower counts. -/
theorem influenceFactor_step_witness :
    influenceFactor 500 = 4/5 ∧ influenceFactor 50000 = 1 :=
  ⟨(influenceFactor_step 500).1 (by norm_num),
    (influenceFactor_step 50000).2.2.1 (by norm_num) (by norm_num)⟩

/-- C10: a `create_time` equal to the integer 0 is falsy in Python, so the
time-decay factor is 0.5 — identical to a missing `create_time` — and not
the 0.1 of the more-than-180-days-old bucket, even though timestamp 0 (the
Unix epoch) is far more than 180 days in the past (contrast: timestamp 1 at
the same reference time falls in the 0.1 bucket). -/
theorem timeDecay_zero_timestamp (now : ℤ) :
    calculateTimeDecay (some 0) now = calculateTimeDecay none now ∧
    calculateTimeDecay (some 0) now = 1/2 ∧
    calculateTimeDecay (some 0) now ≠ 1/10 ∧
    calculateTimeDecay (some 1) 1760227200 = 1/10 := by
  refine ⟨by norm_num [calculateTimeDecay], by norm_num [calculateTimeDecay],
    by norm_num [calculateTimeDecay], ?_⟩
  have hd : Int.fdiv (1760227200 - 1) 86400 = 20372 := by decide
  simp only [calculateTimeDecay, hd]
  norm_num

/-- C4: with zero plays the play sub-score and the engagement-rate sub-score
are both 0 and the engagement-rate division is guarded (its else branch
returns 0, so no division by zero is performed); and all three normalizers
stay within [0,1] on non-negative inputs. -/
theorem virality_normalization_safety :
    (∀ s : Stats, s.plays = 0 →
      engagementRate s = 0 ∧
      normalizePlays s.plays = 0 ∧
      normalizeEngagementRate (engagementRate s) = 0) ∧
    (∀ p : ℚ, 0 ≤ p → 0 ≤ normalizePlays p ∧ normalizePlays p ≤ 1) ∧
    (∀ r : ℚ, 0 ≤ r →
      0 ≤ normalizeEngagementRate r ∧ normalizeEngagementRate r ≤ 1) ∧
    (∀ q : ℚ, 0 ≤ q → 0 ≤ normalizeShares q ∧ normalizeShares q ≤ 1) := by
  refine ⟨?_, normalizePlays_bounds, normalizeEngagementRate_bounds,
    normalizeShares_bounds⟩
  intro s hp
  have h1 : engagementRate s = 0 := by simp [engagementRate, hp]
  refine ⟨h1, ?_, ?_⟩
  · rw [hp]
    norm_num [normalizePlays]
  · rw [h1]
    norm_num [normalizeEngagementRate]

/-- Witness for `virality_normalization_safety` at concrete inputs. -/
theorem virality_normalization_safety_witness :
    engagementRate ⟨0, 7, 8, 9⟩ = 0 ∧ 0 ≤ normalizePlays 12345 :=
  ⟨(virality_normalization_safety.1 ⟨0, 7, 8, 9⟩ rfl).1,
    (virality_normalization_safety.2.1 12345 (by norm_num)).1⟩

theorem tagContribution_bounds (textL : String) (t : UserTag)
    (h0 : 0 ≤ t.affinity) :
    0 ≤ tagContribution textL t ∧ tagContribution textL t ≤ t.affinity := by
  unfold tagContribution
  dsimp only
  split_ifs <;> constructor <;> linarith

theorem calcTagMatch_bounds (v : Video) (tags : List UserTag)
    (h : ∀ t ∈ tags, 0 ≤ t.affinity) :
    0 ≤ calcTagMatch v tags ∧ calcTagMatch v tags ≤ 1 := by
  have htop : ∀ t ∈ tags.take 10, 0 ≤ t.affinity := fun t ht =>
    h t (List.take_subset _ _ ht)
  have h1 : 0 ≤ ((tags.take 10).map
      (fun t => tagContribution (strLower (createVideoText v)) t)).sum := by
    apply List.sum_nonneg
    intro x hx
    obtain ⟨t, ht, rfl⟩ := List.mem_map.1 hx
    exact (tagContribution_bounds _ t (htop t ht)).1
  have h2 : ((tags.take 10).map
        (fun t => tagContribution (strLower (createVideoText v)) t)).sum ≤
      ((tags.take 10).map (fun t => t.affinity)).sum :=
    List.sum_le_sum (fun t ht => (tagContribution_bounds _ t (htop t ht)).2)
  unfold calcTagMatch
  dsimp only
  split_ifs with hpos
  · exact ⟨div_nonneg h1 hpos.le, (div_le_one hpos).2 h2⟩
  · norm_num

theorem embeddingScore_bounds (sim : Option ℚ)
    (h : ∀ x, sim = some x → -1 ≤ x ∧ x ≤ 1) :
    0 ≤ embeddingScore sim ∧ embeddingScore sim ≤ 1 := by
  cases sim with
  | none => norm_num [embeddingScore]
  | some s =>
    obtain ⟨h1, h2⟩ := h s rfl
    unfold embeddingScore
    constructor <;> [linarith; linarith]

theorem sourceTagBoost_bounds (v : Video) (tags : List UserTag)
    (h : ∀ t ∈ tags, 0 ≤ t.affinity ∧ t.affinity ≤ 1) :
    0 ≤ sourceTagBoost v tags ∧ sourceTagBoost v tags ≤ 1/5 := by
  unfold sourceTagBoost
  cases hf : List.find? (fun t => v.source_tags.contains t.tag) (tags.take 5) with
  | none => norm_num
  | some t =>
    have ht := h t (List.take_subset _ _ (List.mem_of_find?_eq_some hf))
    constructor <;> [linarith [ht.1]; linarith [ht.2]]

/-- C2: the virality score of any video with non-negative counters lies in
[0,1]; the relevance score lies in [0,1] whenever the user-tag affinities
lie in [0,1] (and the abstracted cosine similarity, when present, lies in
[-1,1] as cosine similarity does). -/
theorem scores_unit_range :
    (∀ (s : Stats) (ct : Option ℤ) (now : ℤ),
      0 ≤ viralityScore s ct now ∧ viralityScore s ct now ≤ 1) ∧
    (∀ (v : Video) (tags : List UserTag) (sim : Option ℚ),
      (∀ t ∈ tags, 0 ≤ t.affinity ∧ t.affinity ≤ 1) →
      (∀ x, sim = some x → -1 ≤ x ∧ x ≤ 1) →
      0 ≤ relevanceScore v tags sim ∧ relevanceScore v tags sim ≤ 1) := by
  constructor
  · intro s ct now
    have h1 := normalizePlays_bounds (s.plays : ℚ) (by positivity)
    have h2 := normalizeEngagementRate_bounds _ (engagementRate_nonneg s)
    have h3 := normalizeShares_bounds (s.shares : ℚ) (by positivity)
    have h4 := calculateTimeDecay_bounds ct now
    unfold viralityScore
    exact ⟨le_min (by norm_num) (by nlinarith [h1.1, h2.1, h3.1, h4.1]),
      min_le_left _ _⟩
  · intro v tags sim htags hsim
    have h1 := calcTagMatch_bounds v tags (fun t ht => (htags t ht).1)
    have h2 := embeddingScore_bounds sim hsim
    have h3 := sourceTagBoost_bounds v tags htags
    unfold relevanceScore
    exact ⟨le_min (by norm_num) (by nlinarith [h1.1, h2.1, h3.1]),
      min_le_left _ _⟩

/-- Witness for `scores_unit_range` at a concrete video and empty tag list. -/
theorem scores_unit_range_witness :
    0 ≤ relevanceScore ⟨none, "", "", "", ⟨0, 0, 0, 0⟩, none, "", [], []⟩ [] none :=
  (scores_unit_range.2 ⟨none, "", "", "", ⟨0, 0, 0, 0⟩, none, "", [], []⟩ []
    none (by simp) (by simp)).1

theorem itemEngagement_nonneg (s : Stats) : 0 ≤ itemEngagement s := by
  unfold itemEngagement
  positivity

theorem analyzeContentRelevance_nonneg (content : List Post) (tagL : String)
    (w : ℚ) (hw : 0 ≤ w) : 0 ≤ analyzeContentRelevance content tagL w := by
  apply List.sum_nonneg
  intro x hx
  obtain ⟨item, _, rfl⟩ := List.mem_map.1 hx
  split_ifs
  · exact mul_nonneg (itemEngagement_nonneg _) hw
  · exact le_refl 0

theorem engagementBoost_nonneg (tag : String) (posts reposts liked : List Post) :
    0 ≤ engagementBoost tag posts reposts liked := by
  have h1 := analyzeContentRelevance_nonneg posts (strLower tag) 1 (by norm_num)
  have h2 := analyzeContentRelevance_nonneg reposts (strLower tag) (4/5) (by norm_num)
  have h3 := analyzeContentRelevance_nonneg liked (strLower tag) (3/5) (by norm_num)
  unfold engagementBoost
  exact le_min (by norm_num) (by apply div_nonneg (by linarith) (by norm_num))

theorem influenceFactor_nonneg (followers : ℕ) : 0 ≤ influenceFactor followers := by
  unfold influenceFactor
  split_ifs <;> norm_num

/-- C5: every output of the affinity scorer has
`affinity = min(1, base_affinity + engagement_boost × influence_factor)`,
and that affinity lies in [0,1] whenever the base affinity does — also when
the un-clamped sum exceeds 1. -/
theorem affinity_clamped (mappings : List TagMapping) (followers : ℕ)
    (posts reposts liked : List Post) :
    affinityScore mappings followers posts reposts liked
      = mappings.map (fun m => scoreMapping m followers posts reposts liked) ∧
    ∀ m : TagMapping,
      0 ≤ m.affinity.getD (1/2) → m.affinity.getD (1/2) ≤ 1 →
      (scoreMapping m followers posts reposts liked).affinity
          = min 1 ((scoreMapping m followers posts reposts liked).base_affinity
            + (scoreMapping m followers posts reposts liked).engagement_boost
              * influenceFactor followers) ∧
      0 ≤ (scoreMapping m followers posts reposts liked).affinity ∧
      (scoreMapping m followers posts reposts liked).affinity ≤ 1 := by
  refine ⟨rfl, ?_⟩
  intro m h0 h1
  have hb := engagementBoost_nonneg m.tag posts reposts liked
  have hi := influenceFactor_nonneg followers
  have hbi : 0 ≤ engagementBoost m.tag posts reposts liked * influenceFactor followers :=
    mul_nonneg hb hi
  refine ⟨rfl, ?_, min_le_left _ _⟩
  exact le_min (by norm_num) (by linarith)

/-- Witness for `affinity_clamped`: a base affinity of 0.9 with a large
engagement boost still yields an affinity ≤ 1. -/
theorem affinity_clamped_witness :
    (scoreMapping ⟨"t", some (9/10), ""⟩ 0 [] [] []).affinity ≤ 1 :=
  ((affinity_clamped [⟨"t", some (9/10), ""⟩] 0 [] [] []).2 ⟨"t", some (9/10), ""⟩
    (by norm_num [Option.getD]) (by norm_num [Option.getD])).2.2

/-- C7 counterexample: for the tag `"cat"` and a single post whose only
hashtag is `"cats"` (description empty, 100 likes), the code's engagement
boost is 0 — the hashtag test is exact list membership, and `"cat"` is not
an element of `["cats"]` — while the claimed substring semantics would give
`min(0.2, 100/100) = 0.2`. -/
theorem engagementBoost_hashtag_counterexample :
    engagementBoost "cat" [⟨"", ["cats"], ⟨0, 100, 0, 0⟩⟩] [] [] = 0 ∧
    claimEngagementBoost "cat" [⟨"", ["cats"], ⟨0, 100, 0, 0⟩⟩] [] [] = 1/5 ∧
    engagementBoost "cat" [⟨"", ["cats"], ⟨0, 100, 0, 0⟩⟩] [] []
      ≠ claimEngagementBoost "cat" [⟨"", ["cats"], ⟨0, 100, 0, 0⟩⟩] [] [] := by
  have hsl : strLower "cat" = "cat" := by decide
  have hpm : postMatches ⟨"", ["cats"], ⟨0, 100, 0, 0⟩⟩ "cat" = false := by decide
  have hcm : claimPostMatches ⟨"", ["cats"], ⟨0, 100, 0, 0⟩⟩ "cat" = true := by decide
  have h1 : engagementBoost "cat" [⟨"", ["cats"], ⟨0, 100, 0, 0⟩⟩] [] [] = 0 := by
    simp only [engagementBoost, analyzeContentRelevance, hsl, List.map_cons,
      List.map_nil, hpm, Bool.false_eq_true, if_false, List.sum_cons,
      List.sum_nil]
    norm_num [min_def]
  have h2 : claimEngagementBoost "cat" [⟨"", ["cats"], ⟨0, 100, 0, 0⟩⟩] [] []
      = 1/5 := by
    simp only [claimEngagementBoost, hsl, List.filter, hcm, List.map_cons,
      List.map_nil, List.sum_cons, List.sum_nil]
    norm_num [min_def, itemEngagement]
  exact ⟨h1, h2, by rw [h1, h2]; norm_num⟩

theorem analyzeContentRelevance_eq (content : List Post) (tagL : String) (w : ℚ) :
    analyzeContentRelevance content tagL w
      = ((content.filter (fun item => postMatches item tagL)).map
          (fun item => itemEngagement item.stats)).sum * w := by
  induction content with
  | nil => simp [analyzeContentRelevance]
  | cons p ps ih =>
    simp only [analyzeContentRelevance, List.map_cons, List.sum_cons,
      List.filter_cons] at ih ⊢
    cases hp : postMatches p tagL <;> simp [hp, ih] <;> ring

/-- C7 amended: the engagement boost equals `min(0.2, S/100)` where `S` sums
the weighted per-item engagement (`likes + 2×comments + 3×shares`, weights
1.0 / 0.8 / 0.6 for posts / reposts / liked posts) over exactly those items
whose lowercased description contains the lowercased tag as a substring *or
whose lowercased hashtag list contains the lowercased tag as an element*;
and the boost is always within [0, 0.2]. -/
theorem engagementBoost_formula (tag : String) (posts reposts liked : List Post) :
    engagementBoost tag posts reposts liked
      = min (1/5) (weightedMatchSum (strLower tag) posts reposts liked / 100) ∧
    0 ≤ engagementBoost tag posts reposts liked ∧
    engagementBoost tag posts reposts liked ≤ 1/5 := by
  refine ⟨?_, engagementBoost_nonneg tag posts reposts liked, min_le_left _ _⟩
  unfold engagementBoost weightedMatchSum
  dsimp only
  rw [analyzeContentRelevance_eq, analyzeContentRelevance_eq,
    analyzeContentRelevance_eq]

/-- C8: with an empty user-tag list the tag-match component is 0 (its
normalizer is 0, so the function returns 0 rather than dividing), the
source-tag boost is 0, and the relevance score collapses to exactly
`0.4 × embedding_score`. -/
theorem relevance_empty_tags (v : Video) (sim : Option ℚ)
    (h : ∀ x, sim = some x → -1 ≤ x ∧ x ≤ 1) :
    calcTagMatch v [] = 0 ∧
    sourceTagBoost v [] = 0 ∧
    relevanceScore v [] sim = 2/5 * embeddingScore sim := by
  have h1 : calcTagMatch v [] = 0 := by simp [calcTagMatch]
  have h2 : sourceTagBoost v [] = 0 := by simp [sourceTagBoost]
  have he := embeddingScore_bounds sim h
  refine ⟨h1, h2, ?_⟩
  unfold relevanceScore
  rw [h1, h2, min_eq_right (by linarith [he.1, he.2])]
  ring

/-- Witness for `relevance_empty_tags` on a concrete video with no
embedding. -/
theorem relevance_empty_tags_witness :
    relevanceScore ⟨none, "", "", "", ⟨0, 0, 0, 0⟩, none, "", [], []⟩ [] none
      = 2/5 * embeddingScore none :=
  (relevance_empty_tags ⟨none, "", "", "", ⟨0, 0, 0, 0⟩, none, "", [], []⟩ none
    (by simp)).2.2

/-- C3 counterexample: the virality score is *not* monotone in the play
count with likes, comments, shares and create_time held fixed: raising plays
from 10000 to 20000 with 1000 likes halves the engagement rate (0.10 → 0.05),
and the score drops from 0.445 to 0.38. -/
theorem virality_not_monotone_in_plays :
    viralityScore ⟨10000, 1000, 0, 0⟩ none 0 = 89/200 ∧
    viralityScore ⟨20000, 1000, 0, 0⟩ none 0 = 19/50 ∧
    viralityScore ⟨20000, 1000, 0, 0⟩ none 0
      < viralityScore ⟨10000, 1000, 0, 0⟩ none 0 := by
  refine ⟨?_, ?_, ?_⟩ <;>
    norm_num [viralityScore, normalizePlays, normalizeEngagementRate,
      normalizeShares, engagementRate, calculateTimeDecay, min_def]

/-- C3 amended: the virality score is monotone non-decreasing in the shares
counter (holding plays, likes, comments and create_time fixed — raising
shares also raises the engagement rate), and the play-count and
engagement-rate normalizers are each monotone non-decreasing; monotonicity
in raw plays holds only at the level of the play sub-score, since raising
plays lowers the engagement rate (see
`virality_not_monotone_in_plays`). -/
theorem virality_monotonicity (plays likes comments s1 s2 : ℕ)
    (ct : Option ℤ) (now : ℤ) (hs : s1 ≤ s2) :
    viralityScore ⟨plays, likes, comments, s1⟩ ct now
      ≤ viralityScore ⟨plays, likes, comments, s2⟩ ct now ∧
    (∀ p q : ℚ, 0 ≤ p → p ≤ q → normalizePlays p ≤ normalizePlays q) ∧
    (∀ p q : ℚ, 0 ≤ p → p ≤ q →
      normalizeEngagementRate p ≤ normalizeEngagementRate q) ∧
    (∀ p q : ℚ, 0 ≤ p → p ≤ q → normalizeShares p ≤ normalizeShares q) := by
  refine ⟨?_, normalizePlays_mono, normalizeEngagementRate_mono,
    normalizeShares_mono⟩
  have hrate : engagementRate ⟨plays, likes, comments, s1⟩
      ≤ engagementRate ⟨plays, likes, comments, s2⟩ := by
    unfold engagementRate
    dsimp only
    split_ifs with hp
    · have hc : ((likes : ℚ) + comments + s1) ≤ ((likes : ℚ) + comments + s2) := by
        have : (s1 : ℚ) ≤ (s2 : ℚ) := by exact_mod_cast hs
        linarith
      have hpq : (0 : ℚ) < plays := by exact_mod_cast hp
      exact div_le_div_of_nonneg_right hc hpq.le
    · exact le_refl _
  have h1 := normalizeEngagementRate_mono _ _
    (engagementRate_nonneg ⟨plays, likes, comments, s1⟩) hrate
  have h2 := normalizeShares_mono (s1 : ℚ) (s2 : ℚ) (by positivity)
    (by exact_mod_cast hs)
  unfold viralityScore
  dsimp only
  exact min_le_min (le_refl 1) (by linarith)

/-- Witness for `virality_monotonicity` at concrete share counts. -/
theorem virality_monotonicity_witness :
    viralityScore ⟨100, 10, 0, 1⟩ none 0 ≤ viralityScore ⟨100, 10, 0, 2⟩ none 0 :=
  (virality_monotonicity 100 10 0 1 2 none 0 (by norm_num)).1

theorem diversityScanAux_length (l : List Recommendation) (n : ℕ)
    (sa st : List String) : (diversityScanAux l n sa st).length = l.length := by
  induction l generalizing n sa st with
  | nil => rfl
  | cons r rest ih => simp [diversityScanAux, ih]

theorem diversityScanAux_video_id (l : List Recommendation) (n : ℕ)
    (sa st : List String) :
    (diversityScanAux l n sa st).map (fun r => r.video_id)
      = l.map (fun r => r.video_id) := by
  induction l generalizing n sa st with
  | nil => rfl
  | cons r rest ih => simp [diversityScanAux, ih]

theorem sortByScoreDesc_perm (l : List Recommendation) :
    (sortByScoreDesc l).Perm l :=
  List.mergeSort_perm l _

theorem buildRecs_video_id (videos : List Video) (vmap rmap : ScoreMap)
    (prof : List UserTag) :
    (buildRecs videos vmap rmap prof).map (fun r => r.video_id)
      = videos.filterMap effectiveId := by
  induction videos with
  | nil => rfl
  | cons v rest ih =>
    cases h : effectiveId v with
    | none => simp [buildRecs, List.filterMap_cons, h] at ih ⊢; exact ih
    | some i =>
      simp [buildRecs, List.filterMap_cons, h] at ih ⊢
      exact ⟨rfl, ih⟩

theorem applyDiversityBoost_video_id_perm (recs : List Recommendation) :
    ((applyDiversityBoost recs).map (fun r => r.video_id)).Perm
      (recs.map (fun r => r.video_id)) := by
  unfold applyDiversityBoost
  split_ifs
  · exact List.Perm.refl _
  · have h1 : ((sortByScoreDesc (diversityScanAux recs 0 [] [])).map
        (fun r => r.video_id)).Perm
          ((diversityScanAux recs 0 [] []).map (fun r => r.video_id)) :=
      (sortByScoreDesc_perm _).map _
    rwa [diversityScanAux_video_id] at h1

/-- C9: videos with a falsy id (missing or empty) contribute no
recommendation — the output ids are exactly (up to the final sorting) the
valid input ids — and an id absent from the virality or relevance score map
is scored with the neutral default 0.5 instead of raising. -/
theorem rank_skips_and_defaults (videos : List Video) (vmap rmap : ScoreMap)
    (prof : List UserTag) :
    ((rank videos vmap rmap prof).map (fun r => r.video_id)).Perm
      (videos.filterMap effectiveId) ∧
    (∀ v : Video, (v.id = none ∨ v.id = some "") → effectiveId v = none) ∧
    (∀ (v : Video) (i : String), effectiveId v = some i →
      (∀ p ∈ vmap, p.1 ≠ i) →
      (mkRec v i vmap rmap prof).scores_virality = 1/2 ∧
      (mkRec v i vmap rmap prof).score
        = 1/2 * (3/10) + lookupScore rmap i (1/2) * (2/5)
          + engagementQuality v * (3/10)) ∧
    (∀ (v : Video) (i : String), effectiveId v = some i →
      (∀ p ∈ rmap, p.1 ≠ i) →
      (mkRec v i vmap rmap prof).scores_relevance = 1/2) := by
  refine ⟨?_, ?_, ?_, ?_⟩
  · have h1 : ((rank videos vmap rmap prof).map (fun r => r.video_id)).Perm
        ((sortByScoreDesc (buildRecs videos vmap rmap prof)).map
          (fun r => r.video_id)) := applyDiversityBoost_video_id_perm _
    have h2 : ((sortByScoreDesc (buildRecs videos vmap rmap prof)).map
        (fun r => r.video_id)).Perm
          ((buildRecs videos vmap rmap prof).map (fun r => r.video_id)) :=
      (sortByScoreDesc_perm _).map _
    have h3 := buildRecs_video_id videos vmap rmap prof
    rw [h3] at h2
    exact h1.trans h2
  · rintro v (h | h) <;> simp [effectiveId, h]
  · intro v i _ hmiss
    have hfind : List.find? (fun p => p.1 == i) vmap = none := by
      rw [List.find?_eq_none]
      intro p hp
      simpa using hmiss p hp
    have hl : lookupScore vmap i (1/2) = 1/2 := by
      unfold lookupScore
      rw [hfind]
    constructor
    · show lookupScore vmap i (1/2) = 1/2
      exact hl
    · show lookupScore vmap i (1/2) * (3/10) + lookupScore rmap i (1/2) * (2/5)
          + engagementQuality v * (3/10) = _
      rw [hl]
  · intro v i _ hmiss
    have hfind : List.find? (fun p => p.1 == i) rmap = none := by
      rw [List.find?_eq_none]
      intro p hp
      simpa using hmiss p hp
    show lookupScore rmap i (1/2) = 1/2
    unfold lookupScore
    rw [hfind]

/-- Witness for `rank_skips_and_defaults`: one id-less video and one video
whose id is in neither score map. -/
theorem rank_skips_and_defaults_witness :
    ((rank [⟨none, "", "a", "", ⟨0, 0, 0, 0⟩, none, "", [], []⟩] [] [] []).map
      (fun r => r.video_id)).Perm
      ([⟨none, "", "a", "", ⟨0, 0, 0, 0⟩, none, "", [], []⟩].filterMap effectiveId) ∧
    (mkRec ⟨some "v1", "", "a", "", ⟨0, 0, 0, 0⟩, none, "", [], []⟩ "v1" [] [] []).scores_virality
      = 1/2 :=
  ⟨(rank_skips_and_defaults [⟨none, "", "a", "", ⟨0, 0, 0, 0⟩, none, "", [], []⟩] [] [] []).1,
    ((rank_skips_and_defaults [] [] [] []).2.2.1
      ⟨some "v1", "", "a", "", ⟨0, 0, 0, 0⟩, none, "", [], []⟩ "v1" rfl
      (by simp)).1⟩

theorem diversityScanAux_getElem (l : List Recommendation) :
    ∀ (n : ℕ) (sa st : List String) (i : ℕ) (hi : i < l.length),
    (diversityScanAux l n sa st).get
        ⟨i, by rw [diversityScanAux_length]; exact hi⟩ =
      { l[i] with
        score := l[i].score
          * factor1 (l[i]) (n + i) ((l.take i).reverse.map (fun r => r.author) ++ sa)
          * factor2 (l[i]) (n + i)
              (((l.take i).reverse.map (fun r => r.matched_tags)).flatten ++ st) } := by
  induction l with
  | nil =>
    intro n sa st i hi
    exact absurd hi (Nat.not_lt_zero i)
  | cons r rest ih =>
    intro n sa st i hi
    cases i with
    | zero => simp [diversityScanAux, List.get_eq_getElem]
    | succ j =>
      have hj : j < rest.length := Nat.lt_of_succ_lt_succ hi
      have h := ih (n + 1) (r.author :: sa) (r.matched_tags ++ st) j hj
      simp only [List.get_eq_getElem] at h
      simp only [diversityScanAux, List.get_eq_getElem, List.getElem_cons_succ]
      rw [h]
      simp only [List.take_succ_cons, List.reverse_cons, List.map_append,
        List.map_cons, List.map_nil, List.flatten_append, List.flatten_cons,
        List.flatten_nil, List.append_nil, List.append_assoc,
        List.singleton_append, Nat.add_comm, Nat.add_left_comm, Nat.add_assoc]

/-- C1: the diversity pass returns lists of at most 10 recommendations
unchanged; on longer lists it permutes (re-sorts) the penalty scan, and the
scan multiplies each item's score — leaving every other field intact — by
exactly `(0.9 if its author already occurred among the previous items and
more than 3 items were already accepted, else 1) × (0.85 if its matched-tag
set is non-empty, a subset of the tags of the previous items, and more than
5 items were already accepted, else 1)`, i.e. by one of 1, 0.9, 0.85,
0.765; a non-negative score is therefore never increased. -/
theorem diversity_pass (recs : List Recommendation) :
    (recs.length ≤ 10 → applyDiversityBoost recs = recs) ∧
    (10 < recs.length →
      (applyDiversityBoost recs).Perm (diversityScanAux recs 0 [] [])) ∧
    (∀ (i : ℕ) (hi : i < recs.length),
      ∃ f : ℚ,
        (diversityScanAux recs 0 [] []).get
            ⟨i, by rw [diversityScanAux_length]; exact hi⟩
          = { recs[i] with score := recs[i].score * f } ∧
        f = factor1 recs[i] i ((recs.take i).map (fun r => r.author))
            * factor2 recs[i] i (((recs.take i).map (fun r => r.matched_tags)).flatten) ∧
        (f = 1 ∨ f = 9/10 ∨ f = 17/20 ∨ f = 153/200) ∧
        (0 ≤ recs[i].score → recs[i].score * f ≤ recs[i].score)) := by
  refine ⟨?_, ?_, ?_⟩
  · intro h
    unfold applyDiversityBoost
    rw [if_pos h]
  · intro h
    unfold applyDiversityBoost
    rw [if_neg (by omega)]
    exact sortByScoreDesc_perm _
  · intro i hi
    have h := diversityScanAux_getElem recs 0 [] [] i hi
    refine ⟨factor1 recs[i] (0 + i)
        ((recs.take i).reverse.map (fun r => r.author) ++ [])
      * factor2 recs[i] (0 + i)
        (((recs.take i).reverse.map (fun r => r.matched_tags)).flatten ++ []),
      ?_, ?_, ?_, ?_⟩
    · rw [h, mul_assoc]
    · have e1 : (recs[i].author ∈
            (recs.take i).reverse.map (fun r => r.author) ++ ([] : List String)
            ∧ 3 < 0 + i)
          ↔ (recs[i].author ∈ (recs.take i).map (fun r => r.author) ∧ 3 < i) := by
        simp [List.map_reverse]
      have e2 : (recs[i].matched_tags ≠ []
            ∧ (∀ t ∈ recs[i].matched_tags,
                t ∈ ((recs.take i).reverse.map (fun r => r.matched_tags)).flatten
                  ++ ([] : List String))
            ∧ 5 < 0 + i)
          ↔ (recs[i].matched_tags ≠ []
            ∧ (∀ t ∈ recs[i].matched_tags,
                t ∈ ((recs.take i).map (fun r => r.matched_tags)).flatten)
            ∧ 5 < i) := by
        simp [List.map_reverse, List.mem_flatten]
      unfold factor1 factor2
      rw [if_congr e1 rfl rfl, if_congr e2 rfl rfl]
    · unfold factor1 factor2
      split_ifs <;> norm_num
    · intro h0
      unfold factor1 factor2
      split_ifs <;> nlinarith

/-- Witness for `diversity_pass`: the empty list (and any list of at most 10
items) passes through unchanged. -/
theorem diversity_pass_witness : applyDiversityBoost [] = [] :=
  (diversity_pass []).1 (by norm_num)

end TikTokRec
